import Mathlib

/-
  Verification development for the COBI sentiment-driven user-profile
  mechanism (SeoulMinds/cobi).

  The backend Python modules that implement the mechanism
  (backend/llm_api/sentiment_analyzer.py, the profile-update and
  similar-users code reached from backend/main.py) are not present in the
  source tree; only the repository documentation
  (src/unnamed/part_010 .. part_012) and the specification describe them.
  Those parts of the embedding are therefore modelled from the spec, as
  marked on each definition.  The storefront chat component
  (src/frontend/src/components/ChatAssistant.tsx) is present and is
  embedded directly from its TypeScript source.

  All scalar arithmetic (weights in [0,1], scores in [-1,1]) is carried
  out over the rationals.
-/

namespace Cobi

/-- Modelled from the spec: the fixed 8-element feature-tag set, in the
vector-dimension order documented for the Qdrant `user_profiles`
collection (dimension 0 = size, ..., dimension 7 = shipping). -/
def featureTags : List String :=
  ["size", "color", "material", "brand", "price", "trend", "durability", "shipping"]

/-- Modelled from the spec: the dimension index of a feature tag in the
stored 8-dimensional weight vector; `none` for a tag outside the fixed
set. -/
def featureIndex (f : String) : Option Nat :=
  if f = "size" then some 0
  else if f = "color" then some 1
  else if f = "material" then some 2
  else if f = "brand" then some 3
  else if f = "price" then some 4
  else if f = "trend" then some 5
  else if f = "durability" then some 6
  else if f = "shipping" then some 7
  else none

/-- Modelled from the spec: a transient extraction result, one per
mentioned feature: feature tag, supporting sentence, polarity label and a
score in [-1,1]. -/
structure FeatureSignal where
  feature : String
  sentence : String
  sentiment : String
  score : ℚ
deriving DecidableEq, Repr

/-- Modelled from the spec: a persisted evidence entry: the fields of the
signal it came from plus a creation timestamp. -/
structure EvidenceRecord where
  feature : String
  sentence : String
  sentiment : String
  score : ℚ
  timestamp : String
deriving DecidableEq, Repr

/-- Modelled from the spec: a user profile holds the 8-dimensional weight
vector (one rational per feature tag, intended range [0,1]) and the
append-only evidence list. -/
structure UserPreferenceProfile where
  weights : List ℚ
  evidence : List EvidenceRecord
deriving DecidableEq, Repr

/-- Modelled from the spec: the fixed learning-rate constant 0.3. -/
def alpha : ℚ := 3 / 10

/-- Modelled from the spec: clamp a rational to the closed interval
[0,1]. -/
def clamp01 (x : ℚ) : ℚ := max 0 (min 1 x)

/-- Modelled from the spec: map a score in [-1,1] into the [0,1] weight
space. -/
def normalizedScore (s : ℚ) : ℚ := (s + 1) / 2

/-- Modelled from the spec and the formula in the repository docs
(src/unnamed/part_011): exponential-moving-average blend
`new_weight = current_weight * (1 - 0.3) + normalized_score * 0.3`,
clamped to [0,1]. -/
def newWeight (w s : ℚ) : ℚ :=
  clamp01 (w * (1 - alpha) + normalizedScore s * alpha)

/-- Modelled from the spec: the EvidenceRecord produced from one applied
signal and the current timestamp. -/
def mkEvidence (sig : FeatureSignal) (ts : String) : EvidenceRecord :=
  ⟨sig.feature, sig.sentence, sig.sentiment, sig.score, ts⟩

/-- Modelled from the spec: apply one FeatureSignal to a profile.  A
signal whose tag is outside the fixed set is discarded; otherwise the
weight at the tag's dimension is blended by `newWeight` and one evidence
record is appended. -/
def applySignal (ts : String) (p : UserPreferenceProfile)
    (sig : FeatureSignal) : UserPreferenceProfile :=
  match featureIndex sig.feature with
  | none => p
  | some i =>
      { weights := p.weights.set i (newWeight (p.weights.getD i (1/2)) sig.score)
        evidence := p.evidence ++ [mkEvidence sig ts] }

/-- Modelled from the spec: the Profile Updater applies the extracted
signals sequentially, in extraction order, each off the result of the
previous one. -/
def updateProfile (ts : String) (p : UserPreferenceProfile)
    (sigs : List FeatureSignal) : UserPreferenceProfile :=
  sigs.foldl (applySignal ts) p

/-- Modelled from the spec: the profile created lazily on first
interaction: weight 0.5 in every one of the 8 dimensions, empty evidence
list. -/
def defaultProfile : UserPreferenceProfile :=
  ⟨List.replicate 8 (1/2), []⟩

/-- Modelled from the spec: read a profile from the keyed store, falling
back to the all-neutral default when the user has no profile yet. -/
def getOrCreate (store : String → Option UserPreferenceProfile)
    (uid : String) : UserPreferenceProfile :=
  (store uid).getD defaultProfile

/- Basic lemmas about the updater. -/

theorem featureIndex_lt_eight {f : String} {i : Nat}
    (h : featureIndex f = some i) : i < 8 := by
  unfold featureIndex at h
  split_ifs at h <;> simp_all <;> omega

theorem featureIndex_eq_none_of_not_mem {f : String}
    (h : f ∉ featureTags) : featureIndex f = none := by
  unfold featureIndex
  simp only [featureTags] at h
  split_ifs <;> simp_all

theorem applySignal_weights_length (ts : String)
    (p : UserPreferenceProfile) (sig : FeatureSignal) :
    (applySignal ts p sig).weights.length = p.weights.length := by
  unfold applySignal
  cases h : featureIndex sig.feature <;> simp [List.length_set]

theorem updateProfile_weights_length (ts : String)
    (p : UserPreferenceProfile) (sigs : List FeatureSignal) :
    (updateProfile ts p sigs).weights.length = p.weights.length := by
  induction sigs generalizing p with
  | nil => rfl
  | cons s rest ih =>
      simpa [updateProfile, applySignal_weights_length] using
        (ih (applySignal ts p s)).trans (applySignal_weights_length ts p s)

theorem getD_set_self_of_lt {l : List ℚ} {i : Nat} (h : i < l.length)
    (a d : ℚ) : (l.set i a).getD i d = a := by
  simp [List.getD_eq_getElem?_getD, List.getElem?_set_self h]

theorem getD_set_ne_of_ne {l : List ℚ} {i j : Nat} (h : i ≠ j)
    (a d : ℚ) : (l.set i a).getD j d = l.getD j d := by
  simp [List.getD_eq_getElem?_getD, List.getElem?_set_ne h]

theorem getD_default_irrelevant {l : List ℚ} {i : Nat} (h : i < l.length)
    (d d' : ℚ) : l.getD i d = l.getD i d' := by
  simp [List.getD_eq_getElem?_getD, List.getElem?_eq_getElem h]

theorem clamp01_nonneg (x : ℚ) : 0 ≤ clamp01 x := le_max_left 0 (min 1 x)

theorem clamp01_le_one (x : ℚ) : clamp01 x ≤ 1 :=
  max_le (by norm_num) (min_le_left 1 x)

/-- C1: on one FeatureSignal whose tag is one of the fixed 8, the Profile
Updater stores
`new_weight = clamp01 (current_weight * (1 - 0.3) + ((score + 1) / 2) * 0.3)`
at that tag's dimension, leaves the rest of the vector as a point update
of that single dimension, and appends exactly one EvidenceRecord carrying
the signal's feature, sentence, polarity, score and the creation
timestamp. -/
theorem profile_update_single_signal
    (ts : String) (p : UserPreferenceProfile) (sig : FeatureSignal) (i : Nat)
    (hi : featureIndex sig.feature = some i) (hlen : p.weights.length = 8) :
    (applySignal ts p sig).weights.getD i 0 =
      clamp01 (p.weights.getD i 0 * (1 - 3/10) + ((sig.score + 1) / 2) * (3/10))
    ∧ (applySignal ts p sig).weights =
        p.weights.set i (newWeight (p.weights.getD i (1/2)) sig.score)
    ∧ (applySignal ts p sig).evidence =
        p.evidence ++ [⟨sig.feature, sig.sentence, sig.sentiment, sig.score, ts⟩] := by
  have hlt : i < p.weights.length := by
    rw [hlen]; exact featureIndex_lt_eight hi
  refine ⟨?_, ?_, ?_⟩
  · show (applySignal ts p sig).weights.getD i 0 = _
    unfold applySignal
    rw [hi]
    simp only
    rw [getD_set_self_of_lt hlt]
    rw [getD_default_irrelevant hlt (1/2) 0]
    simp [newWeight, alpha, normalizedScore, clamp01]
  · unfold applySignal
    rw [hi]
  · unfold applySignal
    rw [hi]
    rfl

theorem profile_update_single_signal_witness :
    (applySignal "t" defaultProfile ⟨"size", "s0", "positive", 9/10⟩).weights.getD 0 0 =
      clamp01 (defaultProfile.weights.getD 0 0 * (1 - 3/10) + ((9/10 + 1) / 2) * (3/10))
    ∧ (applySignal "t" defaultProfile ⟨"size", "s0", "positive", 9/10⟩).weights =
        defaultProfile.weights.set 0
          (newWeight (defaultProfile.weights.getD 0 (1/2)) (9/10))
    ∧ (applySignal "t" defaultProfile ⟨"size", "s0", "positive", 9/10⟩).evidence =
        defaultProfile.evidence ++ [⟨"size", "s0", "positive", 9/10, "t"⟩] :=
  profile_update_single_signal "t" defaultProfile ⟨"size", "s0", "positive", 9/10⟩ 0
    (by decide) (by decide)

theorem bounded_of_mem_applySignal (ts : String) (p : UserPreferenceProfile)
    (sig : FeatureSignal) (hp : ∀ x ∈ p.weights, 0 ≤ x ∧ x ≤ 1) :
    ∀ x ∈ (applySignal ts p sig).weights, 0 ≤ x ∧ x ≤ 1 := by
  intro x hx
  unfold applySignal at hx
  cases h : featureIndex sig.feature with
  | none => rw [h] at hx; exact hp x hx
  | some i =>
      rw [h] at hx
      simp only at hx
      rcases List.mem_or_eq_of_mem_set hx with hmem | heq
      · exact hp x hmem
      · subst heq
        exact ⟨clamp01_nonneg _, clamp01_le_one _⟩

/-- C2: every weight stored by the Profile Updater lies in [0,1]: the
single-step rule `newWeight` lands in [0,1] for every current weight and
every score, of any sign or magnitude, and a whole updater pass keeps the
vector inside [0,1] whenever it started there. -/
theorem weight_updates_bounded :
    (∀ w s : ℚ, 0 ≤ newWeight w s ∧ newWeight w s ≤ 1)
    ∧ ∀ ts p sigs, (∀ x ∈ p.weights, 0 ≤ x ∧ x ≤ 1) →
        ∀ x ∈ (updateProfile ts p sigs).weights, 0 ≤ x ∧ x ≤ 1 := by
  constructor
  · intro w s
    exact ⟨clamp01_nonneg _, clamp01_le_one _⟩
  · intro ts p sigs
    induction sigs generalizing p with
    | nil => intro hp; exact hp
    | cons s rest ih =>
        intro hp
        exact ih (applySignal ts p s) (bounded_of_mem_applySignal ts p s hp)

theorem weight_updates_bounded_witness :
    ∀ x ∈ (updateProfile "t" defaultProfile
        [⟨"size", "s0", "positive", 5⟩, ⟨"price", "s1", "negative", -7⟩]).weights,
      0 ≤ x ∧ x ≤ 1 :=
  weight_updates_bounded.2 "t" defaultProfile
    [⟨"size", "s0", "positive", 5⟩, ⟨"price", "s1", "negative", -7⟩]
    (by
      intro x hx
      simp only [defaultProfile, List.mem_replicate] at hx
      rw [hx.2]
      norm_num)

/-- C4: the weight vector keeps length exactly 8 under profile creation
and every updater pass, and a signal whose feature tag is outside the
fixed 8-tag set is discarded: the profile is returned unchanged, with no
error, no weight change and no new dimension. -/
theorem weight_vector_fixed_dimension :
    defaultProfile.weights.length = 8
    ∧ (∀ ts p sigs, (updateProfile ts p sigs).weights.length = p.weights.length)
    ∧ (∀ ts p sig, sig.feature ∉ featureTags → applySignal ts p sig = p) := by
  refine ⟨by decide, updateProfile_weights_length, ?_⟩
  intro ts p sig h
  unfold applySignal
  rw [featureIndex_eq_none_of_not_mem h]

theorem weight_vector_fixed_dimension_witness :
    applySignal "t" defaultProfile ⟨"quality", "s0", "positive", 1/2⟩ = defaultProfile :=
  weight_vector_fixed_dimension.2.2 "t" defaultProfile
    ⟨"quality", "s0", "positive", 1/2⟩ (by decide)

/-- Modelled from the spec: the effect of one signal on the weight of one
fixed dimension `i` in isolation: the blend applies when the signal
targets dimension `i`, and the weight passes through unchanged
otherwise. -/
def signalStep (i : Nat) (w : ℚ) (sig : FeatureSignal) : ℚ :=
  match featureIndex sig.feature with
  | some j => if j = i then newWeight w sig.score else w
  | none => w

theorem applySignal_getD (ts : String) (p : UserPreferenceProfile)
    (sig : FeatureSignal) (i : Nat) (hlen : p.weights.length = 8) (hi : i < 8) :
    (applySignal ts p sig).weights.getD i 0 =
      signalStep i (p.weights.getD i 0) sig := by
  have hilt : i < p.weights.length := by rw [hlen]; exact hi
  unfold applySignal signalStep
  cases h : featureIndex sig.feature with
  | none => rfl
  | some j =>
      have hjlt : j < p.weights.length := by
        rw [hlen]; exact featureIndex_lt_eight h
      simp only
      by_cases hij : j = i
      · subst hij
        rw [if_pos rfl, getD_set_self_of_lt hjlt,
          getD_default_irrelevant hjlt (1/2) 0]
      · rw [if_neg hij, getD_set_ne_of_ne hij]

/-- C3: over one updater call with several signals, the final weight of a
fixed dimension is the left fold of the single-signal rule over the
signals in extraction order, each step reading the weight produced by the
previous one — no averaging or batching of same-feature signals. -/
theorem sequential_fold_update (ts : String) (p : UserPreferenceProfile)
    (sigs : List FeatureSignal) (i : Nat)
    (hlen : p.weights.length = 8) (hi : i < 8) :
    (updateProfile ts p sigs).weights.getD i 0 =
      sigs.foldl (signalStep i) (p.weights.getD i 0) := by
  induction sigs generalizing p with
  | nil => rfl
  | cons s rest ih =>
      have hlen' : (applySignal ts p s).weights.length = 8 :=
        (applySignal_weights_length ts p s).trans hlen
      calc (updateProfile ts p (s :: rest)).weights.getD i 0
          = (updateProfile ts (applySignal ts p s) rest).weights.getD i 0 := rfl
        _ = rest.foldl (signalStep i) ((applySignal ts p s).weights.getD i 0) :=
            ih (applySignal ts p s) hlen'
        _ = rest.foldl (signalStep i) (signalStep i (p.weights.getD i 0) s) := by
            rw [applySignal_getD ts p s i hlen hi]
        _ = (s :: rest).foldl (signalStep i) (p.weights.getD i 0) := rfl

theorem sequential_fold_update_witness :
    (updateProfile "t" defaultProfile
        [⟨"size", "s0", "positive", 1⟩, ⟨"size", "s1", "negative", -1⟩]).weights.getD 0 0 =
      [FeatureSignal.mk "size" "s0" "positive" 1,
       FeatureSignal.mk "size" "s1" "negative" (-1)].foldl
        (signalStep 0) (defaultProfile.weights.getD 0 0) :=
  sequential_fold_update "t" defaultProfile
    [⟨"size", "s0", "positive", 1⟩, ⟨"size", "s1", "negative", -1⟩] 0
    (by decide) (by decide)

theorem newWeight_zero_linear (w : ℚ) (h0 : 0 ≤ w) (h1 : w ≤ 1) :
    newWeight w 0 = 7/10 * w + 3/20 := by
  have hval : w * (1 - alpha) + normalizedScore 0 * alpha = 7/10 * w + 3/20 := by
    unfold alpha normalizedScore
    ring
  rw [newWeight, hval, clamp01,
    min_eq_right (by linarith), max_eq_right (by linarith)]

theorem newWeight_zero_bounds (w : ℚ) (h0 : 0 ≤ w) (h1 : w ≤ 1) :
    0 ≤ newWeight w 0 ∧ newWeight w 0 ≤ 1 := by
  rw [newWeight_zero_linear w h0 h1]
  constructor <;> linarith

/-- C5: from any current weight in [0,1], a signal with score exactly 0
(normalized 0.5) moves the weight strictly closer to 0.5 — and a second
such application strictly closer again — unless the weight already is
0.5, and the weight never crosses to the opposite side of 0.5. -/
theorem neutral_signal_converges (w : ℚ) (h0 : 0 ≤ w) (h1 : w ≤ 1) :
    (w ≠ 1/2 →
      |newWeight w 0 - 1/2| < |w - 1/2|
      ∧ |newWeight (newWeight w 0) 0 - 1/2| < |newWeight w 0 - 1/2|)
    ∧ (1/2 ≤ w → 1/2 ≤ newWeight w 0 ∧ 1/2 ≤ newWeight (newWeight w 0) 0)
    ∧ (w ≤ 1/2 → newWeight w 0 ≤ 1/2 ∧ newWeight (newWeight w 0) 0 ≤ 1/2) := by
  obtain ⟨hb0, hb1⟩ := newWeight_zero_bounds w h0 h1
  have e1 : newWeight w 0 = 7/10 * w + 3/20 := newWeight_zero_linear w h0 h1
  have e2 : newWeight (newWeight w 0) 0 = 7/10 * newWeight w 0 + 3/20 :=
    newWeight_zero_linear _ hb0 hb1
  have d1 : newWeight w 0 - 1/2 = 7/10 * (w - 1/2) := by rw [e1]; ring
  have d2 : newWeight (newWeight w 0) 0 - 1/2 = 7/10 * (newWeight w 0 - 1/2) := by
    rw [e2]; ring
  refine ⟨?_, ?_, ?_⟩
  · intro hne
    have habs : (0:ℚ) < |w - 1/2| := abs_pos.mpr (sub_ne_zero.mpr hne)
    have step1 : |newWeight w 0 - 1/2| < |w - 1/2| := by
      rw [d1, abs_mul, abs_of_nonneg (by norm_num : (0:ℚ) ≤ 7/10)]
      linarith
    have hne1 : newWeight w 0 - 1/2 ≠ 0 := by
      rw [d1]
      exact mul_ne_zero (by norm_num) (sub_ne_zero.mpr hne)
    have habs1 : (0:ℚ) < |newWeight w 0 - 1/2| := abs_pos.mpr hne1
    have step2 : |newWeight (newWeight w 0) 0 - 1/2| < |newWeight w 0 - 1/2| := by
      rw [d2, abs_mul, abs_of_nonneg (by norm_num : (0:ℚ) ≤ 7/10)]
      linarith
    exact ⟨step1, step2⟩
  · intro hge
    have g1 : 1/2 ≤ newWeight w 0 := by nlinarith [d1]
    have g2 : 1/2 ≤ newWeight (newWeight w 0) 0 := by nlinarith [d2]
    exact ⟨g1, g2⟩
  · intro hle
    have g1 : newWeight w 0 ≤ 1/2 := by nlinarith [d1]
    have g2 : newWeight (newWeight w 0) 0 ≤ 1/2 := by nlinarith [d2]
    exact ⟨g1, g2⟩

theorem neutral_signal_converges_witness :
    |newWeight (9/10) 0 - 1/2| < |(9/10 : ℚ) - 1/2|
    ∧ |newWeight (newWeight (9/10) 0) 0 - 1/2| < |newWeight (9/10) 0 - 1/2| :=
  (neutral_signal_converges (9/10) (by norm_num) (by norm_num)).1 (by norm_num)

/-- C6: a missing profile is created with weight 0.5 in all 8 dimensions,
and from that neutral default a strictly positive score pushes the
feature's weight strictly above 0.5 while a strictly negative score
pushes it strictly below 0.5. -/
theorem fresh_profile_direction :
    (∀ uid, getOrCreate (fun _ => none) uid = defaultProfile)
    ∧ defaultProfile.weights = List.replicate 8 (1/2)
    ∧ (∀ s : ℚ, 0 < s → 1/2 < newWeight (1/2) s)
    ∧ (∀ s : ℚ, s < 0 → newWeight (1/2) s < 1/2) := by
  have hval : ∀ s : ℚ, (1/2 : ℚ) * (1 - alpha) + normalizedScore s * alpha
      = 1/2 + 3/20 * s := by
    intro s
    unfold alpha normalizedScore
    ring
  refine ⟨fun _ => rfl, rfl, ?_, ?_⟩
  · intro s hs
    have hx : (1/2 : ℚ) < 1/2 + 3/20 * s := by linarith
    rw [newWeight, hval s, clamp01]
    exact lt_of_lt_of_le (lt_min (by norm_num) hx) (le_max_right 0 _)
  · intro s hs
    have hx : (1/2 : ℚ) + 3/20 * s < 1/2 := by linarith
    rw [newWeight, hval s, clamp01]
    exact max_lt (by norm_num) (lt_of_le_of_lt (min_le_right 1 _) hx)

theorem fresh_profile_direction_witness :
    getOrCreate (fun _ => none) "u1" = defaultProfile
    ∧ 1/2 < newWeight (1/2) (9/10)
    ∧ newWeight (1/2) (-(9/10)) < 1/2 :=
  ⟨fresh_profile_direction.1 "u1",
   fresh_profile_direction.2.2.1 (9/10) (by norm_num),
   fresh_profile_direction.2.2.2 (-(9/10)) (by norm_num)⟩

/-- Modelled from the spec: the hand-authored positive and negative
phrase lists per feature tag used by the deterministic keyword fallback
of backend/llm_api/sentiment_analyzer.py, which is absent from src/.
Each entry is (feature tag, positive phrases, negative phrases); the
concrete phrases are representative, the spec fixes only the mechanism. -/
def keywordTable : List (String × List String × List String) :=
  [("size", ["perfect fit", "fits well"], ["too tight", "too small", "too big"]),
   ("color", ["love the color", "beautiful color"], ["hate the color", "ugly color"]),
   ("material", ["great material", "excellent material"], ["cheap material", "poor quality"]),
   ("brand", ["great brand", "love this brand"], ["bad brand", "never this brand"]),
   ("price", ["great price", "good deal"], ["too expensive", "overpriced"]),
   ("trend", ["very trendy", "so stylish"], ["outdated", "old fashioned"]),
   ("durability", ["very durable", "lasts long"], ["broke quickly", "fell apart"]),
   ("shipping", ["fast shipping", "arrived quickly"], ["slow shipping", "late delivery"])]

/-- Modelled from the spec: substring test used by the keyword lookup. -/
def containsPhrase (msg phrase : String) : Bool :=
  decide (phrase.toList <:+: msg.toList)

/-- Modelled from the spec: the deterministic keyword fallback: for each
feature tag, a matched positive phrase yields one positive signal and a
matched negative phrase one negative signal; a message with no tracked
keyword yields the empty list. -/
def keywordFallback (msg : String) : List FeatureSignal :=
  keywordTable.foldr
    (fun e acc =>
      (if e.2.1.any (containsPhrase msg) then [⟨e.1, msg, "positive", 7/10⟩] else [])
      ++ (if e.2.2.any (containsPhrase msg) then [⟨e.1, msg, "negative", -(7/10)⟩] else [])
      ++ acc) []

/-- Modelled from the spec: the outcome of the hosted language-model
call: either a successfully parsed signal list, or a failure (error,
timeout, or output not parsing into the expected tuple shape). -/
inductive LLMResult where
  | ok (sigs : List FeatureSignal)
  | failed
deriving DecidableEq, Repr

/-- Modelled from the spec: the Sentiment Extractor: the primary path
returns the parsed model output; on any model failure it falls back to
the deterministic keyword lookup and never raises. -/
def analyzeMessage (llm : LLMResult) (msg : String) : List FeatureSignal :=
  match llm with
  | .ok sigs => sigs
  | .failed => keywordFallback msg

/-- Modelled from the spec: the body of POST /api/chat. -/
structure ChatRequest where
  text : String
  user_id : String
deriving DecidableEq, Repr

/-- Modelled from the spec: the response of POST /api/chat: beyond the
chat reply it carries a sentiment_features array mirroring the
FeatureSignal shape (feature, sentence, sentiment, score). -/
structure ChatResponse where
  id : String
  user_message : String
  ai_response : String
  model : String
  sentiment_features : List FeatureSignal
deriving DecidableEq, Repr

/-- Modelled from the spec: the chat endpoint of backend/main.py, absent
from src/: it extracts signals from the message, applies the Profile
Updater to the (lazily created) profile of the requesting user, and
returns the chat reply together with the extracted signals, plus the
updated keyed profile store. -/
def chatEndpoint (llm : LLMResult) (reply ts mid : String)
    (store : String → Option UserPreferenceProfile) (req : ChatRequest) :
    ChatResponse × (String → Option UserPreferenceProfile) :=
  let sigs := analyzeMessage llm req.text
  let p2 := updateProfile ts (getOrCreate store req.user_id) sigs
  (⟨mid, req.text, reply, "gemini-2.5-flash", sigs⟩,
   fun u => if u = req.user_id then some p2 else store u)

/-- C8: when the language-model call fails, times out or does not parse,
the extractor returns exactly the deterministic keyword-lookup matches
(possibly empty) instead of raising; and when, in addition, the message
matches no tracked-feature keyword, the chat endpoint leaves every stored
profile — weights and evidence — exactly as it was. -/
theorem extractor_failure_fallback :
    (∀ msg, analyzeMessage LLMResult.failed msg = keywordFallback msg)
    ∧ ∀ reply ts mid store (req : ChatRequest) p,
        store req.user_id = some p →
        keywordFallback req.text = [] →
        ∀ u, (chatEndpoint LLMResult.failed reply ts mid store req).2 u = store u := by
  refine ⟨fun _ => rfl, ?_⟩
  intro reply ts mid store req p hp hkw u
  show (if u = req.user_id
      then some (updateProfile ts (getOrCreate store req.user_id)
        (analyzeMessage LLMResult.failed req.text))
      else store u) = store u
  by_cases hu : u = req.user_id
  · rw [if_pos hu, hu]
    have hsig : analyzeMessage LLMResult.failed req.text = [] := hkw
    rw [hsig]
    show some (getOrCreate store req.user_id) = store req.user_id
    rw [getOrCreate, hp]
    rfl
  · rw [if_neg hu]

theorem extractor_failure_fallback_witness :
    ∀ u, (chatEndpoint LLMResult.failed "hi" "t" "m"
        (fun v => if v = "u1" then some defaultProfile else none)
        ⟨"hello there", "u1"⟩).2 u
      = (fun v => if v = "u1" then some defaultProfile else none) u :=
  extractor_failure_fallback.2 "hi" "t" "m"
    (fun v => if v = "u1" then some defaultProfile else none)
    ⟨"hello there", "u1"⟩ defaultProfile (by simp) (by decide)

/-- C9: every response of the modelled chat endpoint carries, beyond the
chat reply, a sentiment_features array holding exactly the extracted
FeatureSignal values (shape: feature, sentence, sentiment, score), for
every request and extractor outcome. -/
theorem chat_response_sentiment_features :
    ∀ llm reply ts mid store (req : ChatRequest),
      (chatEndpoint llm reply ts mid store req).1.sentiment_features
        = analyzeMessage llm req.text
      ∧ (chatEndpoint llm reply ts mid store req).1.user_message = req.text
      ∧ (chatEndpoint llm reply ts mid store req).1.ai_response = reply :=
  fun _ _ _ _ _ _ => ⟨rfl, rfl, rfl⟩

/-- Modelled from the spec: dot product of two weight vectors. -/
def dot (u v : List ℚ) : ℚ := (List.zipWith (fun a b => a * b) u v).sum

/-- Modelled from the spec: the vector-store similarity score.  The
hosted store ranks by cosine similarity; over nonnegative weight vectors
the squared cosine `(u.v)^2 / (u.u * v.v)` is order-equivalent to the
cosine and equals 1 exactly when the cosine attains its maximum 1, so the
model scores with the squared cosine to stay inside the rationals.  Zero
vectors score 0. -/
def cosineSimSq (u v : List ℚ) : ℚ :=
  if dot u u = 0 ∨ dot v v = 0 then 0 else (dot u v)^2 / (dot u u * dot v v)

/-- Modelled from the spec: one entry of the similar-users response: a
peer user identifier paired with its similarity score. -/
structure ScoredUser where
  user_id : String
  similarity : ℚ
deriving DecidableEq, Repr

/-- Modelled from the spec: descending order on similarity scores. -/
def simDesc (a b : ScoredUser) : Prop := b.similarity ≤ a.similarity

instance : DecidableRel simDesc :=
  fun a b => inferInstanceAs (Decidable (b.similarity ≤ a.similarity))

instance : IsTotal ScoredUser simDesc :=
  ⟨fun a b => le_total b.similarity a.similarity⟩

instance : IsTrans ScoredUser simDesc :=
  ⟨fun _ _ _ hab hbc => le_trans hbc hab⟩

/-- Modelled from the spec: the similar-users endpoint of backend/main.py
(GET /api/user-profile/similar-users, absent from src/): look up the
queried profile, score every other stored profile against it, rank
descending by score and return at most `limit` entries; an unknown user
yields no results. -/
def similarUsers (store : List (String × List ℚ)) (uid : String)
    (limit : Nat) : List ScoredUser :=
  match store.find? (fun p => p.1 == uid) with
  | none => []
  | some q =>
      let cands := (store.filter (fun p => p.1 != uid)).map
        (fun p => ScoredUser.mk p.1 (cosineSimSq q.2 p.2))
      (List.insertionSort simDesc cands).take limit

theorem mem_similarUsers {store : List (String × List ℚ)} {uid : String}
    {limit : Nat} {q : String × List ℚ}
    (hq : store.find? (fun p => p.1 == uid) = some q)
    {r : ScoredUser} (hr : r ∈ similarUsers store uid limit) :
    ∃ p ∈ store, p.1 ≠ uid ∧ p.1 = r.user_id
      ∧ r.similarity = cosineSimSq q.2 p.2 := by
  unfold similarUsers at hr
  rw [hq] at hr
  simp only at hr
  have hr2 := List.Sublist.mem hr (List.take_sublist _ _)
  have hr3 := (List.perm_insertionSort simDesc _).mem_iff.mp hr2
  rcases List.mem_map.mp hr3 with ⟨p, hpf, hpr⟩
  rcases List.mem_filter.mp hpf with ⟨hps, hpne⟩
  refine ⟨p, hps, ?_, ?_, ?_⟩
  · exact bne_iff_ne.mp hpne
  · rw [← hpr]
  · rw [← hpr]

/-- C7: for every query the modelled similar-users endpoint returns at
most `limit` results, never the queried user itself, sorted descending by
similarity score, each result being a stored peer paired with its
similarity to the queried vector; and two identical non-zero weight
vectors score exactly the maximum 1. -/
theorem similar_users_spec (store : List (String × List ℚ)) (uid : String)
    (limit : Nat) (q : String × List ℚ)
    (hq : store.find? (fun p => p.1 == uid) = some q) :
    (similarUsers store uid limit).length ≤ limit
    ∧ (∀ r ∈ similarUsers store uid limit, r.user_id ≠ uid)
    ∧ List.Sorted simDesc (similarUsers store uid limit)
    ∧ (∀ r ∈ similarUsers store uid limit,
        ∃ p ∈ store, p.1 = r.user_id ∧ r.similarity = cosineSimSq q.2 p.2)
    ∧ (∀ v : List ℚ, dot v v ≠ 0 → cosineSimSq v v = 1) := by
  refine ⟨?_, ?_, ?_, ?_, ?_⟩
  · unfold similarUsers
    rw [hq]
    simp only
    rw [List.length_take]
    exact inf_le_left
  · intro r hr
    rcases mem_similarUsers hq hr with ⟨p, _, hne, hid, _⟩
    rw [← hid]
    exact hne
  · unfold similarUsers
    rw [hq]
    simp only
    exact List.Pairwise.sublist (List.take_sublist _ _)
      (List.sorted_insertionSort simDesc _)
  · intro r hr
    rcases mem_similarUsers hq hr with ⟨p, hps, _, hid, hsim⟩
    exact ⟨p, hps, hid, hsim⟩
  · intro v hv
    unfold cosineSimSq
    rw [if_neg (by simp [hv]), pow_two, div_self (mul_ne_zero hv hv)]

theorem similar_users_spec_witness :
    (similarUsers [("a", [1, 0, 0, 0, 0, 0, 0, 2]), ("b", [1, 0, 0, 0, 0, 0, 0, 2])]
        "a" 5).length ≤ 5
    ∧ (∀ r ∈ similarUsers
          [("a", [1, 0, 0, 0, 0, 0, 0, 2]), ("b", [1, 0, 0, 0, 0, 0, 0, 2])] "a" 5,
        r.user_id ≠ "a")
    ∧ List.Sorted simDesc (similarUsers
        [("a", [1, 0, 0, 0, 0, 0, 0, 2]), ("b", [1, 0, 0, 0, 0, 0, 0, 2])] "a" 5)
    ∧ (∀ r ∈ similarUsers
          [("a", [1, 0, 0, 0, 0, 0, 0, 2]), ("b", [1, 0, 0, 0, 0, 0, 0, 2])] "a" 5,
        ∃ p ∈ [(("a" : String), ([1, 0, 0, 0, 0, 0, 0, 2] : List ℚ)),
               ("b", [1, 0, 0, 0, 0, 0, 0, 2])],
          p.1 = r.user_id ∧ r.similarity = cosineSimSq [1, 0, 0, 0, 0, 0, 0, 2] p.2)
    ∧ (∀ v : List ℚ, dot v v ≠ 0 → cosineSimSq v v = 1) :=
  similar_users_spec
    [("a", [1, 0, 0, 0, 0, 0, 0, 2]), ("b", [1, 0, 0, 0, 0, 0, 0, 2])] "a" 5
    ("a", [1, 0, 0, 0, 0, 0, 0, 2]) (by decide)

/-- Embedded from src/frontend/src/components/ChatAssistant.tsx: a
catalog product as the chat flow handles it; the flow never inspects
product fields beyond carrying them, so only the identifier is kept. -/
structure Product where
  id : String
deriving DecidableEq, Repr

/-- Embedded from src/frontend/src/api.ts as used by ChatAssistant.tsx:
the backend calls the component could issue while sending a chat message:
the product-list read getProducts(page, limit) and the chat endpoint call
sendMessage(text) that appears only in commented-out code. -/
inductive BackendRequest where
  | getProducts (page limit : Nat)
  | chatSend (text : String)
deriving DecidableEq, Repr

/-- Embedded from the Message interface of ChatAssistant.tsx. -/
structure ChatMessage where
  id : String
  user_message : String
  ai_response : String
  model : String
  products : List Product
deriving DecidableEq, Repr

/-- Embedded from simulateLLMResponse in ChatAssistant.tsx: the canned
assistant replies one of which is chosen at random. -/
def cannedResponses : List String :=
  ["Great question! Based on what you\x27re looking for, I found some perfect matches:",
   "I\x27d be happy to help! Here are some products that might interest you:",
   "Let me show you what we have that matches your needs:",
   "Perfect! I found some excellent options for you:"]

/-- Embedded from simulateLLMResponse in ChatAssistant.tsx (lines 56-87):
the reply is built client-side from the fetched catalog page.  The
Math.random draws are explicit parameters: `coin` picks 2 or 3 products,
`shuffle` stands for the random-comparator sort, `respIdx` picks the
canned reply.  `fetched = none` models the catch branch on a failed
product fetch.  The second component records every backend request
issued: only the getProducts(1, 20) read. -/
def simulateLLMResponse (fetched : Option (List Product))
    (shuffle : List Product → List Product) (respIdx : Nat) (coin : Bool) :
    (String × List Product) × List BackendRequest :=
  match fetched with
  | some items =>
      let numProducts := if coin then 3 else 2
      ((cannedResponses.getD (respIdx % 4) "", (shuffle items).take numProducts),
       [BackendRequest.getProducts 1 20])
  | none =>
      (("I\x27m here to help! Could you tell me more about what you\x27re looking for?", []),
       [BackendRequest.getProducts 1 20])

/-- Embedded from the component state of ChatAssistant.tsx. -/
structure AssistantState where
  messages : List ChatMessage
  inputValue : String
  isThinking : Bool
deriving DecidableEq, Repr

/-- Embedded from the inputValue.trim() guard of handleSend: JavaScript
String.prototype.trim strips leading and trailing whitespace; implemented
structurally over the character list. -/
def trimStr (s : String) : String :=
  ⟨((s.toList.dropWhile Char.isWhitespace).reverse.dropWhile
      Char.isWhitespace).reverse⟩

/-- Embedded from handleSend in ChatAssistant.tsx (lines 89-127): an
empty (trimmed) input or a pending turn is a no-op; otherwise the
simulated reply is appended as a message with model label
"Simulated LLM (Demo)" and the input cleared.  The sendMessage call to
the backend chat endpoint is commented out in the source, so no chatSend
request is ever issued. -/
def handleSend (st : AssistantState) (fetched : Option (List Product))
    (shuffle : List Product → List Product) (respIdx : Nat) (coin : Bool)
    (now : String) : AssistantState × List BackendRequest :=
  if trimStr st.inputValue = "" ∨ st.isThinking = true then (st, [])
  else
    let r := simulateLLMResponse fetched shuffle respIdx coin
    ({ messages := st.messages
        ++ [⟨now, st.inputValue, r.1.1, "Simulated LLM (Demo)", r.1.2⟩],
       inputValue := "",
       isThinking := false }, r.2)

/-- Modelled from the spec: the backend state the storefront can affect:
the keyed profile store. -/
structure BackendState where
  profiles : String → Option UserPreferenceProfile

/-- Modelled from the spec: the backend effect of each request the chat
component can issue: the product-list read never touches profiles, while
a chat send would run the full sentiment pipeline of the chat
endpoint. -/
def applyRequest (llm : LLMResult) (reply ts mid uid : String)
    (bs : BackendState) : BackendRequest → BackendState
  | BackendRequest.getProducts _ _ => bs
  | BackendRequest.chatSend text =>
      ⟨(chatEndpoint llm reply ts mid bs.profiles ⟨text, uid⟩).2⟩

/-- Modelled from the spec: run a list of backend requests in order. -/
def runRequests (llm : LLMResult) (reply ts mid uid : String)
    (bs : BackendState) (reqs : List BackendRequest) : BackendState :=
  reqs.foldl (applyRequest llm reply ts mid uid) bs

/-- C10: a chat turn in the storefront ChatAssistant issues only the
product-list read — never a chatSend, since that call is commented out —
so running its requests against the backend leaves the profile store
unchanged; and when the turn is not blocked, the reply appended to the
transcript is built client-side from 2 or 3 shuffled catalog products. -/
theorem chat_assistant_no_profile_mutation
    (st : AssistantState) (fetched : Option (List Product))
    (shuffle : List Product → List Product) (respIdx : Nat) (coin : Bool)
    (now : String) (llm : LLMResult) (reply ts mid uid : String)
    (bs : BackendState) :
    (∀ r ∈ (handleSend st fetched shuffle respIdx coin now).2,
        r = BackendRequest.getProducts 1 20)
    ∧ (∀ text, BackendRequest.chatSend text
        ∉ (handleSend st fetched shuffle respIdx coin now).2)
    ∧ (runRequests llm reply ts mid uid bs
        (handleSend st fetched shuffle respIdx coin now).2).profiles = bs.profiles
    ∧ (trimStr st.inputValue ≠ "" → st.isThinking = false →
        (handleSend st fetched shuffle respIdx coin now).2
          = [BackendRequest.getProducts 1 20]
        ∧ ∀ items, fetched = some items →
            (handleSend st fetched shuffle respIdx coin now).1.messages
              = st.messages
                ++ [⟨now, st.inputValue, cannedResponses.getD (respIdx % 4) "",
                     "Simulated LLM (Demo)",
                     (shuffle items).take (if coin then 3 else 2)⟩]
            ∧ ((if coin then (3:Nat) else 2) = 2 ∨ (if coin then (3:Nat) else 2) = 3)) := by
  by_cases hguard : trimStr st.inputValue = "" ∨ st.isThinking = true
  · have hs : handleSend st fetched shuffle respIdx coin now = (st, []) := by
      rw [handleSend, if_pos hguard]
    rw [hs]
    refine ⟨?_, ?_, rfl, ?_⟩
    · intro r hr
      simp at hr
    · intro text hmem
      simp at hmem
    · intro h1 h2
      rcases hguard with hg | hg
      · exact absurd hg h1
      · rw [h2] at hg
        cases hg
  · have hreq : (handleSend st fetched shuffle respIdx coin now).2
        = [BackendRequest.getProducts 1 20] := by
      rw [handleSend, if_neg hguard]
      cases fetched <;> rfl
    refine ⟨?_, ?_, ?_, ?_⟩
    · intro r hr
      rw [hreq] at hr
      exact List.mem_singleton.mp hr
    · intro text hmem
      rw [hreq] at hmem
      simp at hmem
    · rw [hreq]
      rfl
    · intro _ _
      refine ⟨hreq, ?_⟩
      intro items heq
      constructor
      · subst heq
        rw [handleSend, if_neg hguard]
        rfl
      · cases coin <;> simp

theorem chat_assistant_no_profile_mutation_witness :
    (handleSend ⟨[], "hi", false⟩ (some [⟨"p1"⟩, ⟨"p2"⟩, ⟨"p3"⟩]) id 0 false "m1").2
      = [BackendRequest.getProducts 1 20]
    ∧ ∀ items, some [Product.mk "p1", Product.mk "p2", Product.mk "p3"] = some items →
        (handleSend ⟨[], "hi", false⟩ (some [⟨"p1"⟩, ⟨"p2"⟩, ⟨"p3"⟩]) id 0 false "m1").1.messages
          = [] ++ [⟨"m1", "hi", cannedResponses.getD (0 % 4) "",
               "Simulated LLM (Demo)", (id items).take (if false then 3 else 2)⟩]
        ∧ ((if false then (3:Nat) else 2) = 2 ∨ (if false then (3:Nat) else 2) = 3) :=
  (chat_assistant_no_profile_mutation ⟨[], "hi", false⟩
      (some [⟨"p1"⟩, ⟨"p2"⟩, ⟨"p3"⟩]) id 0 false "m1"
      LLMResult.failed "r" "t" "m" "u" ⟨fun _ => none⟩).2.2.2
    (by decide) rfl

end Cobi
